import Mathlib

/-!
Verification of `parse_logs.py`, a script that reverse-scans a JSON-lines
log file, selects up to 30 entries whose severity line passes a lexical
pre-filter and whose message contains "Spotify", and writes formatted
records to an output file.

The script's control flow depends on `json.loads` only through its result,
so the JSON parser is abstracted as an oracle `jsonLoads : String → Option JVal`
passed to every embedded function; concrete theorems instantiate it with the
value Python's `json.loads` returns on the concrete line in question.
All substring tests, slicing, formatting and the counting loop are modelled
concretely.
-/

/-- JSON values as produced by `json.loads`.  Numbers are modelled as
integers (no claim depends on float rendering); an object is its key/value
list (Python dicts from `json.loads` have unique keys). -/
inductive JVal where
  | jstr (s : String)
  | jnum (n : Int)
  | jbool (b : Bool)
  | jnull
  | jarr (elems : List JVal)
  | jobj (fields : List (String × JVal))

/-- `pfx needle hay`: `needle` is a prefix of `hay` (on character lists). -/
def pfx : List Char → List Char → Bool
  | [], _ => true
  | _ :: _, [] => false
  | a :: as, b :: bs => a = b && pfx as bs

/-- `hasSub needle hay`: `needle` occurs as a contiguous sublist of `hay`. -/
def hasSub (needle : List Char) : List Char → Bool
  | [] => pfx needle []
  | b :: bs => pfx needle (b :: bs) || hasSub needle bs

/-- Python's `needle in hay` on strings: substring containment. -/
def strContains (hay needle : String) : Bool :=
  hasSub needle.data hay.data

/-- The lexical pre-filter of line 20 of the script:
`'"@l":"Error"' in line or '"@l":"Warning"' in line`. -/
def preFilter (line : String) : Bool :=
  strContains line "\"@l\":\"Error\"" || strContains line "\"@l\":\"Warning\""

/-- Python `entry.get(k)` / `k in entry` on the parsed JSON object:
lookup of key `k` in the field list. -/
def entryGet (e : List (String × JVal)) (k : String) : Option JVal :=
  match e with
  | [] => none
  | (k0, v) :: rest => if k0 = k then some v else entryGet rest k

/-- A single-quote character, used by the Python `repr` rendering. -/
def sqc : String :=
  String.singleton (Char.ofNat 39)

/-- Escaping of one character inside a Python single-quoted `repr` string
(backslash, quote and the common control characters; a simplification of
CPython's full repr escaping, which no claim inspects). -/
def escChar (c : Char) : String :=
  if c.toNat = 92 then "\\\\"
  else if c.toNat = 39 then "\\" ++ sqc
  else if c.toNat = 10 then "\\n"
  else if c.toNat = 13 then "\\r"
  else if c.toNat = 9 then "\\t"
  else String.singleton c

/-- Escape every character of a string for Python `repr`. -/
def escStr (s : String) : String :=
  String.join (s.data.map escChar)

mutual

/-- Python `repr` of a JSON-decoded value (strings rendered in single
quotes; always the single-quote form — the double-quote fallback CPython
uses for strings containing a quote is not reproduced, and no claim
inspects it). -/
def pyRepr : JVal → String
  | JVal.jstr s => sqc ++ escStr s ++ sqc
  | JVal.jnum n => toString n
  | JVal.jbool b => if b then "True" else "False"
  | JVal.jnull => "None"
  | JVal.jarr xs => "[" ++ pyReprList xs ++ "]"
  | JVal.jobj kvs => "\x7b" ++ pyReprObj kvs ++ "\x7d"

/-- Comma-separated `repr` of list elements. -/
def pyReprList : List JVal → String
  | [] => ""
  | [v] => pyRepr v
  | v :: vs => pyRepr v ++ ", " ++ pyReprList vs

/-- Comma-separated `repr` of dict items. -/
def pyReprObj : List (String × JVal) → String
  | [] => ""
  | [(k, v)] => pyRepr (JVal.jstr k) ++ ": " ++ pyRepr v
  | (k, v) :: kvs => pyRepr (JVal.jstr k) ++ ": " ++ pyRepr v ++ ", " ++ pyReprObj kvs

end

/-- Python `str()` of a value, as used by f-string interpolation:
a string interpolates verbatim, everything else via `repr`-style rendering
(`True`/`False`/`None`/decimal for scalars). -/
def pyStr : JVal → String
  | JVal.jstr s => s
  | v => pyRepr v

/-- Python equality `'Spotify' == v`: true exactly when `v` is the string
"Spotify" (a string never equals a non-string under `==`). -/
def isSpotifyStr : JVal → Bool
  | JVal.jstr s => s = "Spotify"
  | _ => false

/-- Python `'Spotify' in msg`: `some b` when the membership test succeeds
with result `b` (substring test on a string, element equality on a list,
key membership on a dict), `none` when it raises `TypeError`
(ints, floats, booleans, `None`). -/
def inSpotify : JVal → Option Bool
  | JVal.jstr s => some (strContains s "Spotify")
  | JVal.jarr xs => some (xs.any isSpotifyStr)
  | JVal.jobj kvs => some (kvs.any (fun kv => kv.1 = "Spotify"))
  | _ => none

/-- `msg = entry.get('@mt', '')` of line 22. -/
def msgOf (e : List (String × JVal)) : JVal :=
  (entryGet e "@mt").getD (JVal.jstr "")

/-- Python `v[:500]` as applied on line 33: `some` of the sliced value
when `v` is sliceable (a string slices to its first 500 code points, a
list to its first 500 elements), `none` when slicing raises `TypeError`. -/
def sliceVal : JVal → Option JVal
  | JVal.jstr s => some (JVal.jstr (String.mk (s.data.take 500)))
  | JVal.jarr xs => some (JVal.jarr (xs.take 500))
  | _ => none

/-- The main record line written on line 25:
`f"[{entry.get('@t')}] {entry.get('@l')}: {msg}\n"` (an absent key yields
`None`). -/
def mainChunk (e : List (String × JVal)) : String :=
  "[" ++ pyStr ((entryGet e "@t").getD JVal.jnull) ++ "] "
      ++ pyStr ((entryGet e "@l").getD JVal.jnull) ++ ": "
      ++ pyStr (msgOf e) ++ "\n"

/-- The optional `Status` and `Response` lines written on lines 27-30,
in that order, each only when its key is present. -/
def optChunks (e : List (String × JVal)) : List String :=
  (match entryGet e "Status" with
   | some v => ["   Status: " ++ pyStr v ++ "\n"]
   | none => []) ++
  (match entryGet e "Response" with
   | some v => ["   Response: " ++ pyStr v ++ "\n"]
   | none => [])

/-- The body of the `try` block (lines 21-35) for one line that already
passed the pre-filter: the list of strings written to the output file, and
whether `count += 1` was reached.  Any exception inside the block is caught
by the bare `except: pass`, so a raise after some writes leaves exactly
those writes in place with no increment:
* parse failure, a non-dict top level (`entry.get` raises), or a message
  on which `in` raises: nothing written, no increment;
* message lacking "Spotify": nothing written, no increment;
* matched entry whose `@x` is present but unsliceable: the main record and
  optional lines are written, then `entry['@x'][:500]` raises, so no
  Exception line and no increment.
`processEntry` is the part after a successful parse to a dict `e`;
`processLine` composes it with the parse itself. -/
def processEntry (e : List (String × JVal)) : List String × Bool :=
  match inSpotify (msgOf e) with
  | none => ([], false)
  | some false => ([], false)
  | some true =>
    match entryGet e "@x" with
    | none => (mainChunk e :: optChunks e, true)
    | some x =>
      match sliceVal x with
      | some sx =>
        (mainChunk e :: optChunks e
          ++ ["   Exception: " ++ pyStr sx ++ "...\n"], true)
      | none => (mainChunk e :: optChunks e, false)

def processLine (jsonLoads : String → Option JVal) (line : String) :
    List String × Bool :=
  match jsonLoads line with
  | some (JVal.jobj e) => processEntry e
  | _ => ([], false)

/-- Result of the scanning loop: the strings written to the output file in
order, the final value of `count`, and (as a ghost observation) the lines
at whose processing `count += 1` executed, in processing order. -/
structure ScanOut where
  chunks : List String
  count : Nat
  counted : List String
  deriving DecidableEq, Repr

/-- The loop of lines 17-36, processing lines already put in scan order
(`reversed(lines)`), with current counter `c`: stop (`break`) as soon as
`count >= 30`, skip lines failing the pre-filter, otherwise run the `try`
body and accumulate its writes. -/
def scanGo (jsonLoads : String → Option JVal) (c : Nat) :
    List String → ScanOut
  | [] => ⟨[], c, []⟩
  | l :: ls =>
    if 30 ≤ c then ⟨[], c, []⟩
    else if preFilter l then
      let pr := processLine jsonLoads l
      if pr.2 then
        let rest := scanGo jsonLoads (c + 1) ls
        ⟨pr.1 ++ rest.chunks, rest.count, l :: rest.counted⟩
      else
        let rest := scanGo jsonLoads c ls
        ⟨pr.1 ++ rest.chunks, rest.count, rest.counted⟩
    else scanGo jsonLoads c ls

/-- The whole scan of lines 16-36: iterate over `reversed(lines)` with
`count = 0`. -/
def runScan (jsonLoads : String → Option JVal) (lines : List String) :
    ScanOut :=
  scanGo jsonLoads 0 lines.reverse

/-- A line "qualifies and is counted": it passes the pre-filter and its
`try` body reaches `count += 1`. -/
def countedQ (jsonLoads : String → Option JVal) (l : String) : Bool :=
  preFilter l && (processLine jsonLoads l).2

/-- A line "matches" in the sense of the specification: it passes the
pre-filter, parses to a dict, and its message contains "Spotify" (the
membership test succeeding with `True`). -/
def matchQ (jsonLoads : String → Option JVal) (l : String) : Bool :=
  preFilter l &&
    (match jsonLoads l with
     | some (JVal.jobj e) => (inSpotify (msgOf e)).getD false
     | _ => false)

/-- Observable result of one program run: the lines printed to the console
and the content of the output file (`none` when it was never created). -/
structure ProgResult where
  consoleOut : List String
  outFile : Option (List String)
  deriving DecidableEq, Repr

/-- The console header of line 14 (built without a literal quote). -/
def headerLine : String :=
  "Last 10 Errors/Warnings with " ++ sqc ++ "Spotify" ++ sqc ++ ":"

/-- The whole program: `none` input means the log file does not exist
(lines 6-8: print "Log file not found" and exit with no output file);
otherwise print the line count and header, then scan and write. -/
def parseLogs (jsonLoads : String → Option JVal)
    (file : Option (List String)) : ProgResult :=
  match file with
  | none => ⟨["Log file not found"], none⟩
  | some lines =>
    ⟨["Total lines: " ++ toString lines.length, headerLine],
     some (runScan jsonLoads lines).chunks⟩

/-! ### Concrete inputs used by witnesses and counterexamples

Each `...Loads` oracle returns, on its concrete line, exactly the value
Python's `json.loads` produces on that line, and `none` elsewhere. -/

/-- A well-formed matching line with no optional fields. -/
def goodRaw : String :=
  "\x7b\"@t\":\"t1\",\"@l\":\"Error\",\"@mt\":\"Spotify down\"\x7d"

/-- `json.loads` of `goodRaw`. -/
def goodEntry : List (String × JVal) :=
  [("@t", JVal.jstr "t1"), ("@l", JVal.jstr "Error"),
   ("@mt", JVal.jstr "Spotify down")]

/-- Parser oracle for `goodRaw`. -/
def goodLoads : String → Option JVal :=
  fun s => if s = goodRaw then some (JVal.jobj goodEntry) else none

/-- 31 copies of the well-formed matching line. -/
def goodLines : List String := List.replicate 31 goodRaw

/-- A matching line whose `@x` is the JSON number 5: `entry['@x'][:500]`
raises `TypeError` after the main record line was written. -/
def badXRaw : String :=
  "\x7b\"@t\":\"t0\",\"@l\":\"Error\",\"@mt\":\"Spotify err\",\"@x\":5\x7d"

/-- `json.loads` of `badXRaw`. -/
def badXEntry : List (String × JVal) :=
  [("@t", JVal.jstr "t0"), ("@l", JVal.jstr "Error"),
   ("@mt", JVal.jstr "Spotify err"), ("@x", JVal.jnum 5)]

/-- Parser oracle for `badXRaw`. -/
def badXLoads : String → Option JVal :=
  fun s => if s = badXRaw then some (JVal.jobj badXEntry) else none

/-- 31 copies of the unsliceable-`@x` matching line. -/
def badXLines : List String := List.replicate 31 badXRaw

/-- A line that is semantically an Error-level Spotify entry, but whose
level field is serialized with a space after the colon, so the lexical
pre-filter never fires on it. -/
def wsRaw : String :=
  "\x7b\"@l\": \"Error\", \"@mt\": \"Spotify problem\"\x7d"

/-- `json.loads` of `wsRaw`: its `@l` IS the string "Error". -/
def wsEntry : List (String × JVal) :=
  [("@l", JVal.jstr "Error"), ("@mt", JVal.jstr "Spotify problem")]

/-- Parser oracle for `wsRaw`. -/
def wsLoads : String → Option JVal :=
  fun s => if s = wsRaw then some (JVal.jobj wsEntry) else none

/-- A line whose top-level `@l` is "Info" but which contains the exact
characters `"@l":"Error"` inside a nested object, so the lexical
pre-filter fires although the entry's level is neither Error nor
Warning. -/
def nestRaw : String :=
  "\x7b\"@t\":\"t2\",\"@l\":\"Info\",\"@mt\":\"Spotify ping\",\"d\":\x7b\"@l\":\"Error\"\x7d\x7d"

/-- `json.loads` of `nestRaw`. -/
def nestEntry : List (String × JVal) :=
  [("@t", JVal.jstr "t2"), ("@l", JVal.jstr "Info"),
   ("@mt", JVal.jstr "Spotify ping"),
   ("d", JVal.jobj [("@l", JVal.jstr "Error")])]

/-- Parser oracle for `nestRaw`. -/
def nestLoads : String → Option JVal :=
  fun s => if s = nestRaw then some (JVal.jobj nestEntry) else none

/-- A line passing the pre-filter that is not valid JSON. -/
def malformedRaw : String := "\x7b\"@l\":\"Error\" oops"

/-- A valid Error-level line whose message does not mention Spotify. -/
def noSpotRaw : String :=
  "\x7b\"@t\":\"t3\",\"@l\":\"Error\",\"@mt\":\"disk full\"\x7d"

/-- `json.loads` of `noSpotRaw`. -/
def noSpotEntry : List (String × JVal) :=
  [("@t", JVal.jstr "t3"), ("@l", JVal.jstr "Error"),
   ("@mt", JVal.jstr "disk full")]

/-- Parser oracle for `noSpotRaw`. -/
def noSpotLoads : String → Option JVal :=
  fun s => if s = noSpotRaw then some (JVal.jobj noSpotEntry) else none

/-- A 501-character exception text. -/
def longX : String := String.mk (List.replicate 501 (Char.ofNat 97))

/-- A matching line whose `@x` is the 501-character string `longX`. -/
def longXEntry : List (String × JVal) :=
  [("@t", JVal.jstr "t4"), ("@l", JVal.jstr "Error"),
   ("@mt", JVal.jstr "Spotify boom"), ("@x", JVal.jstr longX)]

/-- Raw text standing for the serialization of `longXEntry` (its exact
characters are irrelevant: the oracle, not the text, carries the parse). -/
def longXRaw : String :=
  "\x7b\"@t\":\"t4\",\"@l\":\"Error\",\"@mt\":\"Spotify boom\",\"@x\":\"...\"\x7d"

/-- Parser oracle for `longXRaw`. -/
def longXLoads : String → Option JVal :=
  fun s => if s = longXRaw then some (JVal.jobj longXEntry) else none

/-- A matching line with a short (4-character) `@x`. -/
def shortXRaw : String :=
  "\x7b\"@t\":\"t5\",\"@l\":\"Warning\",\"@mt\":\"Spotify slow\",\"@x\":\"boom\"\x7d"

/-- `json.loads` of `shortXRaw`. -/
def shortXEntry : List (String × JVal) :=
  [("@t", JVal.jstr "t5"), ("@l", JVal.jstr "Warning"),
   ("@mt", JVal.jstr "Spotify slow"), ("@x", JVal.jstr "boom")]

/-- Parser oracle for `shortXRaw`. -/
def shortXLoads : String → Option JVal :=
  fun s => if s = shortXRaw then some (JVal.jobj shortXEntry) else none

/-- Two distinct matching lines, for the ordering claim. -/
def ordRawA : String :=
  "\x7b\"@t\":\"t6\",\"@l\":\"Error\",\"@mt\":\"Spotify A\"\x7d"

/-- Second distinct matching line. -/
def ordRawB : String :=
  "\x7b\"@t\":\"t7\",\"@l\":\"Warning\",\"@mt\":\"Spotify B\"\x7d"

/-- Parser oracle for `ordRawA` and `ordRawB`. -/
def ordLoads : String → Option JVal :=
  fun s =>
    if s = ordRawA then
      some (JVal.jobj
        [("@t", JVal.jstr "t6"), ("@l", JVal.jstr "Error"),
         ("@mt", JVal.jstr "Spotify A")])
    else if s = ordRawB then
      some (JVal.jobj
        [("@t", JVal.jstr "t7"), ("@l", JVal.jstr "Warning"),
         ("@mt", JVal.jstr "Spotify B")])
    else none

/-! ### Structural lemmas about the scanning loop -/

/-- Once the counter has reached 30, the loop body never runs again:
the `break` on line 19 discards all remaining lines. -/
theorem scanGo_stop (jl : String → Option JVal) (c : Nat) (xs : List String)
    (h : 30 ≤ c) : scanGo jl c xs = ⟨[], c, []⟩ := by
  cases xs with
  | nil => rfl
  | cons l ls => simp [scanGo, h]

/-- The loop splits over list concatenation, the second half starting at
the counter value the first half ends with. -/
theorem scanGo_append (jl : String → Option JVal) (c : Nat)
    (xs ys : List String) :
    scanGo jl c (xs ++ ys) =
      ⟨(scanGo jl c xs).chunks ++ (scanGo jl (scanGo jl c xs).count ys).chunks,
       (scanGo jl (scanGo jl c xs).count ys).count,
       (scanGo jl c xs).counted
         ++ (scanGo jl (scanGo jl c xs).count ys).counted⟩ := by
  induction xs generalizing c with
  | nil => simp [scanGo]
  | cons l ls ih =>
    by_cases h30 : 30 ≤ c
    · simp [scanGo, h30, scanGo_stop jl c ys h30]
    · by_cases hpf : preFilter l
      · cases hpr : (processLine jl l).2 with
        | false => simp [scanGo, h30, hpf, hpr, ih]
        | true => simp [scanGo, h30, hpf, hpr, ih]
      · simp [scanGo, h30, hpf, ih]

/-- The ghost list of counted lines is exactly the prefix, capped by the
remaining budget `30 - c`, of the lines satisfying `countedQ`, in scan
order. -/
theorem scanGo_counted (jl : String → Option JVal) (c : Nat)
    (xs : List String) :
    (scanGo jl c xs).counted = (xs.filter (countedQ jl)).take (30 - c) := by
  induction xs generalizing c with
  | nil => simp [scanGo]
  | cons l ls ih =>
    by_cases h30 : 30 ≤ c
    · have h0 : 30 - c = 0 := Nat.sub_eq_zero_of_le h30
      simp [scanGo, h30, h0]
    · have hc : 30 - c = (30 - (c + 1)) + 1 := by omega
      by_cases hpf : preFilter l
      · cases hpr : (processLine jl l).2 with
        | false =>
          have hq : countedQ jl l = false := by simp [countedQ, hpf, hpr]
          simp [scanGo, h30, hpf, hpr, hq, ih]
        | true =>
          have hq : countedQ jl l = true := by simp [countedQ, hpf, hpr]
          rw [hc]
          simp [scanGo, h30, hpf, hpr, hq, ih]
      · have hq : countedQ jl l = false := by simp [countedQ, hpf]
        simp [scanGo, h30, hpf, hq, ih]

/-- The final counter value: the initial value plus the number of counted
lines, capped at 30. -/
theorem scanGo_count (jl : String → Option JVal) (c : Nat)
    (xs : List String) (hc : c ≤ 30) :
    (scanGo jl c xs).count = min (c + (xs.filter (countedQ jl)).length) 30 := by
  induction xs generalizing c with
  | nil =>
    simp [scanGo]
    omega
  | cons l ls ih =>
    by_cases h30 : 30 ≤ c
    · have hce : c = 30 := Nat.le_antisymm hc h30
      simp [scanGo, h30, hce]
    · by_cases hpf : preFilter l
      · cases hpr : (processLine jl l).2 with
        | false =>
          have hq : countedQ jl l = false := by simp [countedQ, hpf, hpr]
          simp [scanGo, h30, hpf, hpr, hq, ih c (by omega)]
        | true =>
          have hq : countedQ jl l = true := by simp [countedQ, hpf, hpr]
          simp [scanGo, h30, hpf, hpr, hq, ih (c + 1) (by omega)]
          omega
      · have hq : countedQ jl l = false := by simp [countedQ, hpf]
        simp [scanGo, h30, hpf, hq, ih c (by omega)]

/-- A line that matches passed the pre-filter. -/
theorem matchQ_preFilter {jl : String → Option JVal} {l : String}
    (h : matchQ jl l = true) : preFilter l = true := by
  unfold matchQ at h
  rw [Bool.and_eq_true] at h
  exact h.1

/-- A counted line matches. -/
theorem countedQ_match (jl : String → Option JVal) (l : String)
    (h : countedQ jl l = true) : matchQ jl l = true := by
  unfold countedQ at h
  rw [Bool.and_eq_true] at h
  obtain ⟨hpf, hpr⟩ := h
  unfold matchQ
  rw [hpf, Bool.true_and]
  cases hjl : jl l with
  | none => simp [processLine, hjl] at hpr
  | some v =>
    cases v with
    | jobj e =>
      simp only [processLine, hjl] at hpr
      simp only [hjl]
      cases hsp : inSpotify (msgOf e) with
      | none => simp [processEntry, hsp] at hpr
      | some b =>
        cases b with
        | false => simp [processEntry, hsp] at hpr
        | true => simp [hsp]
    | jstr s => simp [processLine, hjl] at hpr
    | jnum n => simp [processLine, hjl] at hpr
    | jbool b => simp [processLine, hjl] at hpr
    | jnull => simp [processLine, hjl] at hpr
    | jarr xs => simp [processLine, hjl] at hpr

/-- A line that passes the pre-filter but does not match writes nothing
and does not increment the counter. -/
theorem processLine_not_match (jl : String → Option JVal) (l : String)
    (hpf : preFilter l = true) (hm : matchQ jl l = false) :
    processLine jl l = ([], false) := by
  unfold matchQ at hm
  rw [hpf, Bool.true_and] at hm
  cases hjl : jl l with
  | none => simp [processLine, hjl]
  | some v =>
    rw [hjl] at hm
    cases v with
    | jobj e =>
      simp only [] at hm
      simp only [processLine, hjl]
      cases hsp : inSpotify (msgOf e) with
      | none => simp [processEntry, hsp]
      | some b =>
        cases b with
        | false => simp [processEntry, hsp]
        | true => simp [hsp] at hm
    | jstr s => simp [processLine, hjl]
    | jnum n => simp [processLine, hjl]
    | jbool b => simp [processLine, hjl]
    | jnull => simp [processLine, hjl]
    | jarr xs => simp [processLine, hjl]

/-- As long as at most 30 matches can occur, the output content is the
concatenation, over the matching lines in scan order, of each line's
written chunks. -/
theorem scanGo_chunks (jl : String → Option JVal) (c : Nat)
    (xs : List String) (h : c + (xs.filter (matchQ jl)).length ≤ 30) :
    (scanGo jl c xs).chunks =
      ((xs.filter (matchQ jl)).map (fun l => (processLine jl l).1)).flatten := by
  induction xs generalizing c with
  | nil => simp [scanGo]
  | cons l ls ih =>
    by_cases h30 : 30 ≤ c
    · have h0 : ((l :: ls).filter (matchQ jl)).length = 0 := by omega
      rw [List.length_eq_zero] at h0
      simp [scanGo, h30, h0]
    · by_cases hq : matchQ jl l
      · have hlen : ((l :: ls).filter (matchQ jl)).length
            = (ls.filter (matchQ jl)).length + 1 := by
          simp [List.filter_cons, hq]
        cases hpr : (processLine jl l).2 with
        | true =>
          have hpf : preFilter l = true := matchQ_preFilter hq
          have := ih (c + 1) (by omega)
          simp [scanGo, h30, hpf, hpr, hq, this]
        | false =>
          have hpf : preFilter l = true := matchQ_preFilter hq
          have := ih c (by omega)
          simp [scanGo, h30, hpf, hpr, hq, this]
      · by_cases hpf : preFilter l
        · have hz := processLine_not_match jl l hpf (by simpa using hq)
          have := ih c (by simpa [List.filter_cons, hq] using h)
          simp [scanGo, h30, hpf, hz, hq, this]
        · have := ih c (by simpa [List.filter_cons, hq] using h)
          simp [scanGo, h30, hpf, hq, this]

/-- A line failing the pre-filter contributes nothing: the loop body is
never entered for it. -/
theorem scanGo_skip (jl : String → Option JVal) (c : Nat) (l : String)
    (ls : List String) (hpf : preFilter l = false) :
    scanGo jl c (l :: ls) = scanGo jl c ls := by
  by_cases h30 : 30 ≤ c
  · rw [scanGo_stop _ _ _ h30, scanGo_stop _ _ _ h30]
  · simp [scanGo, h30, hpf]

/-- A counted line passed the pre-filter. -/
theorem countedQ_preFilter {jl : String → Option JVal} {l : String}
    (h : countedQ jl l = true) : preFilter l = true := by
  unfold countedQ at h
  rw [Bool.and_eq_true] at h
  exact h.1

/-! ### The claims -/

/-- C1 (counterexample to the claim as stated): `badXLines` has 31 lines
that qualify in the claim's sense (pre-filter, valid JSON, message
contains "Spotify"), yet the run writes 31 record beginnings to the output
file — not exactly 30 — and counts none of them, because each line's
`entry['@x'][:500]` raises after the main record line was written. -/
theorem c1_count_cap_counterexample :
    30 < ((badXLines.reverse).filter (matchQ badXLoads)).length ∧
    (runScan badXLoads badXLines).chunks.length = 31 ∧
    (runScan badXLoads badXLines).counted = [] := by
  refine ⟨by decide, by decide, by decide⟩

/-- C1 (amended): for qualifying lines that also complete their record
(any `@x` present is sliceable, so `count += 1` runs — `countedQ`), an
input with at least 30 such lines gets exactly 30 of them counted, namely
the 30 closest to the end of the file, and scanning stops there: lines
earlier in the file than the 30th counted one have no effect at all. -/
theorem c1_count_cap_amended (jsonLoads : String → Option JVal)
    (lines : List String)
    (h : 30 ≤ ((lines.reverse).filter (countedQ jsonLoads)).length) :
    (runScan jsonLoads lines).count = 30 ∧
    (runScan jsonLoads lines).counted
      = ((lines.reverse).filter (countedQ jsonLoads)).take 30 ∧
    ∀ extra, runScan jsonLoads (extra ++ lines) = runScan jsonLoads lines := by
  have hcount : (scanGo jsonLoads 0 lines.reverse).count = 30 := by
    rw [scanGo_count jsonLoads 0 lines.reverse (by omega)]
    omega
  refine ⟨hcount, ?_, ?_⟩
  · show (scanGo jsonLoads 0 lines.reverse).counted = _
    rw [scanGo_counted, Nat.sub_zero]
  · intro extra
    show scanGo jsonLoads 0 (extra ++ lines).reverse
        = scanGo jsonLoads 0 lines.reverse
    rw [List.reverse_append, scanGo_append, hcount,
        scanGo_stop jsonLoads 30 extra.reverse (Nat.le_refl 30)]
    show (⟨(scanGo jsonLoads 0 lines.reverse).chunks ++ [], 30,
          (scanGo jsonLoads 0 lines.reverse).counted ++ []⟩ : ScanOut)
        = scanGo jsonLoads 0 lines.reverse
    rw [List.append_nil, List.append_nil, ← hcount]

/-- Witness for C1 (amended) at 31 copies of a fully well-formed matching
line. -/
theorem c1_count_cap_witness :
    (30 ≤ ((goodLines.reverse).filter (countedQ goodLoads)).length) ∧
    (runScan goodLoads goodLines).count = 30 :=
  ⟨by decide, (c1_count_cap_amended goodLoads goodLines (by decide)).1⟩

/-- C2 (counterexample to the claim as stated): `nestRaw` parses to an
entry whose `@l` is "Info" — neither "Error" nor "Warning" — yet it is
selected and written (its nested object contributes the raw characters
`"@l":"Error"`, so the lexical pre-filter fires). -/
theorem c2_level_counterexample :
    (runScan nestLoads [nestRaw]).counted = [nestRaw] ∧
    (runScan nestLoads [nestRaw]).count = 1 ∧
    entryGet nestEntry "@l" = some (JVal.jstr "Info") ∧
    "Info" ≠ "Error" ∧ "Info" ≠ "Warning" :=
  ⟨by decide, by decide, rfl, by decide, by decide⟩

/-- C2 (amended): selection is governed by the lexical pre-filter on the
raw line, not by the parsed level: every line written-and-counted contains
the raw substring `"@l":"Error"` or `"@l":"Warning"`, and any line lacking
both substrings is skipped entirely, whatever its parsed level is. -/
theorem c2_prefilter_amended (jsonLoads : String → Option JVal)
    (lines : List String) (l : String) :
    (l ∈ (runScan jsonLoads lines).counted → preFilter l = true) ∧
    (preFilter l = false →
      ∀ c ls, scanGo jsonLoads c (l :: ls) = scanGo jsonLoads c ls) := by
  constructor
  · intro hmem
    unfold runScan at hmem
    rw [scanGo_counted] at hmem
    have h1 : l ∈ (lines.reverse).filter (countedQ jsonLoads) :=
      List.Sublist.mem hmem (List.take_sublist _ _)
    exact countedQ_preFilter (List.mem_filter.mp h1).2
  · intro hpf c ls
    exact scanGo_skip jsonLoads c l ls hpf

/-- Witness for C2 (amended) at a concrete counted line. -/
theorem c2_prefilter_witness :
    goodRaw ∈ (runScan goodLoads [goodRaw]).counted ∧
    preFilter goodRaw = true :=
  ⟨by decide, (c2_prefilter_amended goodLoads [goodRaw] goodRaw).1 (by decide)⟩

/-- C3 (confirmed): with at most 30 matching lines, the output file is the
concatenation of the matching lines' records taken in reverse file order —
the record of the last matching line comes first, then the next-to-last,
and so on. -/
theorem c3_reverse_order (jsonLoads : String → Option JVal)
    (lines : List String)
    (h : (lines.filter (matchQ jsonLoads)).length ≤ 30) :
    (runScan jsonLoads lines).chunks =
      (((lines.filter (matchQ jsonLoads)).reverse).map
        (fun l => (processLine jsonLoads l).1)).flatten := by
  show (scanGo jsonLoads 0 lines.reverse).chunks = _
  rw [scanGo_chunks jsonLoads 0 lines.reverse
      (by rw [List.filter_reverse, List.length_reverse]; omega)]
  rw [List.filter_reverse]

/-- Witness for C3 at two distinct matching lines. -/
theorem c3_reverse_order_witness :
    ([ordRawA, ordRawB].filter (matchQ ordLoads)).length ≤ 30 ∧
    (runScan ordLoads [ordRawA, ordRawB]).chunks =
      ((([ordRawA, ordRawB].filter (matchQ ordLoads)).reverse).map
        (fun l => (processLine ordLoads l).1)).flatten :=
  ⟨by decide, c3_reverse_order ordLoads [ordRawA, ordRawB] (by decide)⟩

/-- C4 (confirmed): on a missing input file the program prints
"Log file not found", stops, and creates no output file. -/
theorem c4_missing_file (jsonLoads : String → Option JVal) :
    parseLogs jsonLoads none = ⟨["Log file not found"], none⟩ := rfl

/-- C5 (confirmed): a line that passes the pre-filter but fails JSON
parsing is dropped with no write, no counter change and no effect on the
rest of the scan, at any point of the loop. -/
theorem c5_malformed_skip (jsonLoads : String → Option JVal) (l : String)
    (c : Nat) (ls : List String)
    (hpf : preFilter l = true) (hbad : jsonLoads l = none) :
    scanGo jsonLoads c (l :: ls) = scanGo jsonLoads c ls := by
  by_cases h30 : 30 ≤ c
  · rw [scanGo_stop _ _ _ h30, scanGo_stop _ _ _ h30]
  · have hz : processLine jsonLoads l = ([], false) := by
      simp [processLine, hbad]
    simp [scanGo, h30, hpf, hz]

/-- Witness for C5 at a concrete malformed line followed by another
line. -/
theorem c5_malformed_skip_witness :
    preFilter malformedRaw = true ∧
    scanGo (fun _ => none) 0 [malformedRaw, goodRaw]
      = scanGo (fun _ => none) 0 [goodRaw] :=
  ⟨by decide,
   c5_malformed_skip (fun _ => none) malformedRaw 0 [goodRaw] (by decide) rfl⟩

/-- C6 (confirmed): a valid-JSON line passing the pre-filter whose message
string does not contain "Spotify" produces no output record and leaves the
counter and the rest of the scan untouched. -/
theorem c6_no_spotify_skip (jsonLoads : String → Option JVal) (l : String)
    (e : List (String × JVal)) (m : String) (c : Nat) (ls : List String)
    (hpf : preFilter l = true)
    (hjl : jsonLoads l = some (JVal.jobj e))
    (hmsg : msgOf e = JVal.jstr m)
    (hns : strContains m "Spotify" = false) :
    scanGo jsonLoads c (l :: ls) = scanGo jsonLoads c ls := by
  by_cases h30 : 30 ≤ c
  · rw [scanGo_stop _ _ _ h30, scanGo_stop _ _ _ h30]
  · have hsp : inSpotify (msgOf e) = some false := by
      rw [hmsg]
      simp [inSpotify, hns]
    have hz : processLine jsonLoads l = ([], false) := by
      simp [processLine, hjl, processEntry, hsp]
    simp [scanGo, h30, hpf, hz]

/-- Witness for C6 at a concrete Error line about a disk, not Spotify. -/
theorem c6_no_spotify_skip_witness :
    preFilter noSpotRaw = true ∧
    scanGo noSpotLoads 0 [noSpotRaw] = scanGo noSpotLoads 0 [] :=
  ⟨by decide,
   c6_no_spotify_skip noSpotLoads noSpotRaw noSpotEntry "disk full" 0 []
     (by decide) rfl rfl (by decide)⟩

/-- C7 (confirmed): a line is considered only if its raw text contains
`"@l":"Error"` or `"@l":"Warning"` exactly; in particular `wsRaw`, whose
level is serialized with a space (`"@l": "Error"`), parses to a genuine
Error entry yet fails the pre-filter and the whole run writes nothing. -/
theorem c7_lexical_prefilter (jsonLoads : String → Option JVal)
    (c : Nat) (l : String) (ls : List String) :
    (preFilter l = false →
      scanGo jsonLoads c (l :: ls) = scanGo jsonLoads c ls) ∧
    preFilter wsRaw = false ∧
    entryGet wsEntry "@l" = some (JVal.jstr "Error") ∧
    runScan wsLoads [wsRaw] = ⟨[], 0, []⟩ :=
  ⟨fun hpf => scanGo_skip jsonLoads c l ls hpf, by decide, rfl, by decide⟩

/-- Witness for C7 at the whitespace-serialized Error line. -/
theorem c7_lexical_prefilter_witness :
    preFilter wsRaw = false ∧
    scanGo wsLoads 0 [wsRaw] = scanGo wsLoads 0 [] :=
  ⟨by decide, (c7_lexical_prefilter wsLoads 0 wsRaw []).1 (by decide)⟩

/-- C8 (confirmed): a matched entry whose `@x` is a string longer than 500
characters gets an Exception line holding exactly the first 500 characters
of `@x` followed by `...` — and nothing beyond them. -/
theorem c8_exception_truncation (jsonLoads : String → Option JVal)
    (l : String) (e : List (String × JVal)) (s : String)
    (hjl : jsonLoads l = some (JVal.jobj e))
    (hsp : inSpotify (msgOf e) = some true)
    (hx : entryGet e "@x" = some (JVal.jstr s))
    (_hlen : 500 < s.length) :
    processLine jsonLoads l =
      (mainChunk e :: optChunks e
        ++ ["   Exception: " ++ String.mk (s.data.take 500) ++ "...\n"],
       true) := by
  simp [processLine, hjl, processEntry, hsp, hx, sliceVal, pyStr]

set_option maxRecDepth 8000 in
/-- Witness for C8 at a 501-character exception text. -/
theorem c8_exception_truncation_witness :
    500 < longX.length ∧
    processLine longXLoads longXRaw =
      (mainChunk longXEntry :: optChunks longXEntry
        ++ ["   Exception: " ++ String.mk (longX.data.take 500) ++ "...\n"],
       true) :=
  ⟨by decide,
   c8_exception_truncation longXLoads longXRaw longXEntry longX rfl
     (by decide) rfl (by decide)⟩

/-- C9 (confirmed): the `...` marker is appended after the exception text
unconditionally — when `@x` is a string of at most 500 characters, nothing
is cut yet the line still ends with `...`, so the marker does not indicate
truncation. -/
theorem c9_ellipsis_unconditional (jsonLoads : String → Option JVal)
    (l : String) (e : List (String × JVal)) (s : String)
    (hjl : jsonLoads l = some (JVal.jobj e))
    (hsp : inSpotify (msgOf e) = some true)
    (hx : entryGet e "@x" = some (JVal.jstr s))
    (hlen : s.length ≤ 500) :
    processLine jsonLoads l =
      (mainChunk e :: optChunks e
        ++ ["   Exception: " ++ s ++ "...\n"], true) := by
  have htake : s.data.take 500 = s.data := List.take_of_length_le hlen
  simp [processLine, hjl, processEntry, hsp, hx, sliceVal, pyStr, htake]

/-- Witness for C9 at a 4-character exception text. -/
theorem c9_ellipsis_unconditional_witness :
    (("boom" : String)).length ≤ 500 ∧
    processLine shortXLoads shortXRaw =
      (mainChunk shortXEntry :: optChunks shortXEntry
        ++ ["   Exception: " ++ "boom" ++ "...\n"], true) :=
  ⟨by decide,
   c9_ellipsis_unconditional shortXLoads shortXRaw shortXEntry "boom" rfl
     (by decide) rfl (by decide)⟩

/-- C10 (confirmed): record writing is not atomic.  A matched entry whose
`@x` is present but not sliceable has its main record line (and optional
lines) written, but the exception inside the `try` block prevents both the
Exception line and `count += 1`; with 31 such lines the output holds 31
main record lines while the counter stays 0, exceeding the 30-record
cap. -/
theorem c10_partial_record (jsonLoads : String → Option JVal) (l : String)
    (e : List (String × JVal)) (x : JVal) (c : Nat) (ls : List String)
    (hpf : preFilter l = true)
    (hjl : jsonLoads l = some (JVal.jobj e))
    (hsp : inSpotify (msgOf e) = some true)
    (hx : entryGet e "@x" = some x)
    (hbad : sliceVal x = none)
    (hc : c < 30) :
    (scanGo jsonLoads c (l :: ls) =
      ⟨(mainChunk e :: optChunks e) ++ (scanGo jsonLoads c ls).chunks,
       (scanGo jsonLoads c ls).count,
       (scanGo jsonLoads c ls).counted⟩) ∧
    (runScan badXLoads badXLines).chunks
      = List.replicate 31 (mainChunk badXEntry) ∧
    (runScan badXLoads badXLines).count = 0 := by
  refine ⟨?_, by decide, by decide⟩
  have hz : processLine jsonLoads l = (mainChunk e :: optChunks e, false) := by
    simp [processLine, hjl, processEntry, hsp, hx, hbad]
  have h30 : ¬ 30 ≤ c := by omega
  simp [scanGo, h30, hpf, hz]

/-- Witness for C10 at the unsliceable-`@x` line. -/
theorem c10_partial_record_witness :
    preFilter badXRaw = true ∧
    scanGo badXLoads 0 [badXRaw] =
      ⟨(mainChunk badXEntry :: optChunks badXEntry)
         ++ (scanGo badXLoads 0 []).chunks,
       (scanGo badXLoads 0 []).count,
       (scanGo badXLoads 0 []).counted⟩ :=
  ⟨by decide,
   (c10_partial_record badXLoads badXRaw badXEntry (JVal.jnum 5) 0 []
      (by decide) rfl (by decide) rfl rfl (by decide)).1⟩
